import Mathlib

/-!
Verification of the connector8 service registry and event bus.

The definitions below are a shallow embedding of `src/connector8/backend.py`
and `src/connector8/event.py`.  Python objects are identified by numeric ids:
a service class (a `ConnectorUnit` subclass) is a `ServiceClass` record whose
`cid` stands for the identity of the Python class object; an event consumer is
a bare `Nat` id.  Python sets become `Finset Nat` over those ids, so that
membership and duplicate-collapse-by-identity are mirrored exactly.

The `replaced_by` list of a registry entry holds, in the Python code, the
entry objects themselves; entries are only appended to `_class_entries`, and
an entry can only be added to the `replaced_by` of entries registered before
it.  We therefore store `replaced_by` as indices into the same entries list;
indices always point strictly forward, bounding the recursion depth of
`follow_replacing` by the number of entries, which justifies the fuel.
-/

/-- Model of a ConnectorUnit subclass as registered on a Backend.  The field
`cid` is the identity of the Python class object, `odoo_module_name` the
origin tag computed by the metaclass, `bases` the identities of all classes it
derives from (including itself, as Python issubclass is reflexive), and
`model_names` the normalized `_model_name` list used by `ConnectorUnit.match`. -/
structure ServiceClass where
  cid : Nat
  odoo_module_name : String
  bases : List Nat
  model_names : List String
deriving DecidableEq, Repr

/-- Model of the session availability oracle: `is_module_installed` consults
this list of installed Odoo module names. -/
structure ConnectorSession where
  installed_modules : List String
deriving DecidableEq, Repr

/-- Embedding of `session.is_module_installed(name)`. -/
def ConnectorSession.is_module_installed (s : ConnectorSession) (name : String) : Bool :=
  s.installed_modules.contains name

/-- Embedding of Python `issubclass(service_class, base_class)`. -/
def issubclass (service_class base_class : ServiceClass) : Bool :=
  service_class.bases.contains base_class.cid

/-- Embedding of `ConnectorUnit.match(model)`: the model name is a member of
the normalized `model_name` list. -/
def ServiceClass.matchModel (c : ServiceClass) (model_name : String) : Bool :=
  c.model_names.contains model_name

/-- Embedding of `Backend._ConnectorUnitEntry`: a registered service class
together with the entries replacing it, stored as indices into the entries
list of the same node. -/
structure ConnectorUnitEntry where
  service_class : ServiceClass
  replaced_by : List Nat
deriving DecidableEq, Repr

/-- Embedding of `Backend._add_candidate`: add the service class of the entry
to the candidate set when its module is installed, it is a subclass of the
searched base class, and it matches the model name. -/
def add_candidate (candidates : Finset Nat) (entry : ConnectorUnitEntry)
    (base_class : ServiceClass) (session : ConnectorSession)
    (model_name : String) : Finset Nat :=
  let service_class := entry.service_class
  let is_installed := session.is_module_installed service_class.odoo_module_name
  let is_sub := issubclass service_class base_class
  let is_model_matched := service_class.matchModel model_name
  if is_installed && is_sub && is_model_matched then
    insert service_class.cid candidates
  else
    candidates

/-- Embedding of the inner `follow_replacing` closure of
`Backend._get_classes`, with the loop over the entries written as structural
recursion carrying the accumulated candidate set.  For each entry, the
replacing entries are resolved first; when that recursive resolution yields a
non-empty candidate set those candidates substitute for the entry, otherwise
the entry itself is examined by `add_candidate`.  The fuel bounds the depth
of the nested resolution; replacement edges always point to strictly later
entries, so a fuel equal to the number of entries is enough on any state
reachable through `register_service_class` and the exhaustion branch is never
taken there.  The body of the loop is the named function `follow_step`,
taking the one-level-deeper resolution as an argument. -/
def follow_step (entries : List ConnectorUnitEntry) (base_class : ServiceClass)
    (session : ConnectorSession) (model_name : String)
    (resolve_replaced_by : List Nat → Finset Nat)
    (candidates : Finset Nat) (i : Nat) : Finset Nat :=
  match entries.get? i with
  | none => candidates
  | some entry =>
    let replacings :=
      if entry.replaced_by.isEmpty then (∅ : Finset Nat)
      else resolve_replaced_by entry.replaced_by
    if replacings = ∅ then
      add_candidate candidates entry base_class session model_name
    else
      candidates ∪ replacings

/-- Recursive driver of `follow_replacing`: process the entries at the given
indices, resolving each `replaced_by` list one fuel level deeper. -/
def follow_replacing (entries : List ConnectorUnitEntry) (base_class : ServiceClass)
    (session : ConnectorSession) (model_name : String) :
    Nat → List Nat → Finset Nat
  | 0, _ => ∅
  | fuel + 1, idxs =>
    idxs.foldl
      (follow_step entries base_class session model_name
        (follow_replacing entries base_class session model_name fuel))
      ∅

/-- Embedding of a `Backend` object: an id standing for the Python object
identity, a name, an optional version, its list of `_ConnectorUnitEntry`, and
(for the `child` constructor) the parent backend. -/
inductive Backend where
  | root (bid : Nat) (name : String) (version : Option String)
      (entries : List ConnectorUnitEntry)
  | child (bid : Nat) (name : String) (version : Option String)
      (entries : List ConnectorUnitEntry) (parent : Backend)
deriving DecidableEq, Repr

/-- Identity of the backend object. -/
def Backend.bid : Backend → Nat
  | .root b _ _ _ => b
  | .child b _ _ _ _ => b

/-- Name of the backend. -/
def Backend.name : Backend → String
  | .root _ n _ _ => n
  | .child _ n _ _ _ => n

/-- Version of the backend. -/
def Backend.version : Backend → Option String
  | .root _ _ v _ => v
  | .child _ _ v _ _ => v

/-- The `_class_entries` list of the backend. -/
def Backend.entries : Backend → List ConnectorUnitEntry
  | .root _ _ _ es => es
  | .child _ _ _ es _ => es

/-- The `parent` attribute of the backend. -/
def Backend.parent : Backend → Option Backend
  | .root _ _ _ _ => none
  | .child _ _ _ _ p => some p

/-- Replace the `_class_entries` list of the backend. -/
def Backend.withEntries : Backend → List ConnectorUnitEntry → Backend
  | .root b n v _, es => .root b n v es
  | .child b n v _ p, es => .child b n v es p

/-- Embedding of `Backend.match(name, version)`. -/
def Backend.matches (b : Backend) (name : String) (version : Option String) : Bool :=
  b.name == name && b.version == version

/-- Embedding of `Backend.get_backend`: scan the registry of constructed
backends and return the first one matching name and version, or the default
when none matches. -/
def Backend.get_backend (registry : List Backend) (name : String)
    (version : Option String) (default : Option Backend) : Option Backend :=
  match registry.find? (fun b => b.matches name version) with
  | some b => some b
  | none => default

/-- Embedding of `Backend.__init__`: fails when neither a name nor a parent is
given, inherits the name from the parent when absent, starts with no entries,
and adds the new object to the global backend registry. -/
def Backend.init (bid : Nat) (name : Option String) (version : Option String)
    (parent : Option Backend) (registry : List Backend) :
    Except String (Backend × List Backend) :=
  match name, parent with
  | none, none => Except.error "A name or a parent is expected"
  | some nm, none =>
    let b := Backend.root bid nm version []
    Except.ok (b, registry ++ [b])
  | some nm, some p =>
    let b := Backend.child bid nm version [] p
    Except.ok (b, registry ++ [b])
  | none, some p =>
    let b := Backend.child bid p.name version [] p
    Except.ok (b, registry ++ [b])

/-- Candidate set computed from the local entries of the node only, before
any fallback to the parent: the call
`follow_replacing(self._class_entries)` of `Backend._get_classes`. -/
def Backend.local_candidates (b : Backend) (base_class : ServiceClass)
    (session : ConnectorSession) (model_name : String) : Finset Nat :=
  follow_replacing b.entries base_class session model_name
    (b.entries.length + 1) (List.range b.entries.length)

/-- Embedding of `Backend._get_classes`: compute the local candidate set and,
when it is empty and a parent exists, delegate to the parent with the same
arguments. -/
def Backend.get_classes (base_class : ServiceClass) (session : ConnectorSession)
    (model_name : String) : Backend → Finset Nat
  | .root b n v es =>
    (Backend.root b n v es).local_candidates base_class session model_name
  | .child b n v es p =>
    let matching_classes :=
      (Backend.child b n v es p).local_candidates base_class session model_name
    if matching_classes = ∅ then p.get_classes base_class session model_name
    else matching_classes

/-- Outcome of `Backend.get_service_class`: the unique matching class, the
explicit not-found outcome `None`, or the `ConnectorUnitError` raised on
ambiguity, carrying the match count and two example candidates. -/
inductive ResolveResult where
  | found (cid : Nat)
  | notFound
  | ambiguous (count : Nat) (first second : Nat)
deriving DecidableEq, Repr

/-- Embedding of `Backend.get_service_class`: one candidate is returned,
an empty candidate set gives `None`, and more than one candidate raises
`ConnectorUnitError` with the match count and two example candidates.  The
Python code pops from an unordered set; the embedding determinizes the choice
by listing the set in ascending id order. -/
def Backend.get_service_class (b : Backend) (base_class : ServiceClass)
    (session : ConnectorSession) (model_name : String) : ResolveResult :=
  let matching_classes := b.get_classes base_class session model_name
  match matching_classes.sort (· ≤ ·) with
  | [] => ResolveResult.notFound
  | [c] => ResolveResult.found c
  | c1 :: c2 :: _ => ResolveResult.ambiguous matching_classes.card c1 c2

/-- State-passing form of `Backend.get_service_class`, translated statement by
statement from the source: the method reads `self._class_entries`, the parent
chain and the global registry but never assigns to them, so every branch
returns the backend and the registry it was given. -/
def Backend.get_service_class_st (b : Backend) (base_class : ServiceClass)
    (session : ConnectorSession) (model_name : String)
    (registry : List Backend) : ResolveResult × Backend × List Backend :=
  let matching_classes := b.get_classes base_class session model_name
  match matching_classes.sort (· ≤ ·) with
  | [] => (ResolveResult.notFound, b, registry)
  | [c] => (ResolveResult.found c, b, registry)
  | c1 :: c2 :: _ =>
    (ResolveResult.ambiguous matching_classes.card c1 c2, b, registry)

/-- One iteration of the loop of `Backend._register_replace`: append the new
entry (the index it will occupy) to the `replaced_by` of the first local
entry whose service class is `replacing_class`, if any. -/
def _register_replace_step (new_index : Nat) :
    List ConnectorUnitEntry → ServiceClass → List ConnectorUnitEntry
  | [], _ => []
  | e :: es, replacing_class =>
    if e.service_class.cid == replacing_class.cid then
      ConnectorUnitEntry.mk e.service_class (e.replaced_by ++ [new_index]) :: es
    else
      e :: _register_replace_step new_index es replacing_class

/-- Embedding of `Backend._register_replace`: for each class in `replacing`,
append the new entry to the `replaced_by` of the matching local entry. -/
def _register_replace (entries : List ConnectorUnitEntry)
    (replacing : List ServiceClass) (new_index : Nat) : List ConnectorUnitEntry :=
  replacing.foldl (_register_replace_step new_index) entries

/-- Embedding of `Backend.register_service_class`: a class already registered
locally makes the call a no-op; otherwise the replacement edges are recorded
first (so a class never replaces itself) and the new entry is appended.  The
Python `replacing=None` and the scalar form are both normalized to a list,
with `[]` playing the role of `None`. -/
def Backend.register_service_class (b : Backend) (service_class : ServiceClass)
    (replacing : List ServiceClass) : Backend :=
  if b.entries.any (fun e => e.service_class.cid == service_class.cid) then b
  else
    let new_entry := ConnectorUnitEntry.mk service_class []
    let entries := _register_replace b.entries replacing b.entries.length
    b.withEntries (entries ++ [new_entry])

/-- Embedding of `Event`: the `_consumers` dict maps a model name, or the
wildcard key `none`, to the set of subscribed consumer ids.  Key presence is
not observable in the source (reads use `.get(name, set())`), so the dict is
modelled as a total function. -/
structure Event where
  consumers : Option String → Finset Nat

/-- Normalization of the `model_names` argument of the event methods: `None`
means the wildcard scope, otherwise each name is its own scope. -/
def normalize_model_names : Option (List String) → List (Option String)
  | none => [none]
  | some names => names.map some

/-- One step of the subscription loop: `self._consumers.setdefault(name,
set()).add(consumer)`. -/
def add_to_scope (consumer : Nat) (e : Event) (name : Option String) : Event :=
  Event.mk (fun k => if k = name then insert consumer (e.consumers k) else e.consumers k)

/-- One step of the unsubscription loop: `self._consumers[name].discard(consumer)`. -/
def discard_from_scope (consumer : Nat) (e : Event) (name : Option String) : Event :=
  Event.mk (fun k => if k = name then (e.consumers k).erase consumer else e.consumers k)

/-- Embedding of `Event.unsubscribe`: remove the consumer from each scope of
the normalized `model_names`; an absent consumer or scope is a silent no-op. -/
def Event.unsubscribe (e : Event) (consumer : Nat)
    (model_names : Option (List String)) : Event :=
  (normalize_model_names model_names).foldl (discard_from_scope consumer) e

/-- Embedding of `Event.subscribe`: when `replacing` is given, first
unsubscribe it from the same scopes, then add the consumer to each scope of
the normalized `model_names`. -/
def Event.subscribe (e : Event) (consumer : Nat)
    (model_names : Option (List String)) (replacing : Option Nat) : Event :=
  let e1 :=
    match replacing with
    | some r => e.unsubscribe r model_names
    | none => e
  (normalize_model_names model_names).foldl (add_to_scope consumer) e1

/-- Embedding of `Event.has_consumer_for`: true when the wildcard scope is
non-empty, otherwise when the scope of the model name is non-empty.  The
session argument is accepted and ignored, exactly as in the source. -/
def Event.has_consumer_for (e : Event) (session : ConnectorSession)
    (model_name : String) : Bool :=
  if 0 < (e.consumers none).card then true
  else 0 < (e.consumers (some model_name)).card

/-- Embedding of `Event.fire`: call every consumer of the wildcard scope and
then every consumer of the scope of the model name, passing the model name
prepended to the payload (the session argument precedes it in the source and
is ignored by the dispatch logic).  The result lists the performed
invocations; within each scope the unordered Python set is determinized in
ascending id order. -/
def Event.fire (e : Event) (session : ConnectorSession) (model_name : String)
    (args : List String) : List (Nat × List String) :=
  ((e.consumers none).sort (· ≤ ·) ++ (e.consumers (some model_name)).sort (· ≤ ·)).map
    (fun consumer => (consumer, model_name :: args))

/-- Written from the specification text, for comparison with `Event.fire`:
two-pass dispatch that invokes only the consumers whose origin module (given
by the `origins` tag map) is installed, as section 4.2 of the specification
requires. -/
def spec_fire (e : Event) (origins : Nat → String) (session : ConnectorSession)
    (model_name : String) (args : List String) : List (Nat × List String) :=
  (((e.consumers none).sort (· ≤ ·)).filter
      (fun c => session.is_module_installed (origins c)) ++
    ((e.consumers (some model_name)).sort (· ≤ ·)).filter
      (fun c => session.is_module_installed (origins c))).map
    (fun consumer => (consumer, model_name :: args))

/-- Written from the specification text, for comparison with
`Event.has_consumer_for`: true iff the wildcard scope or the named scope
holds at least one consumer whose origin module is installed. -/
def spec_has_consumer_for (e : Event) (origins : Nat → String)
    (session : ConnectorSession) (model_name : String) : Bool :=
  0 < ((e.consumers none).filter
      (fun c => session.is_module_installed (origins c))).card ||
  0 < ((e.consumers (some model_name)).filter
      (fun c => session.is_module_installed (origins c))).card

/-- Sample base capability class used by concrete instances of the theorems. -/
def baseUnit : ServiceClass := ServiceClass.mk 0 "module_base" [0] ["res.users"]

/-- Sample implementation A: subclass of `baseUnit`, applicable to
`res.users`, defined in module `module_a`. -/
def implA : ServiceClass := ServiceClass.mk 1 "module_a" [0, 1] ["res.users"]

/-- Sample implementation B: subclass of `baseUnit`, applicable to
`res.users`, defined in module `module_b`. -/
def implB : ServiceClass := ServiceClass.mk 2 "module_b" [0, 2] ["res.users"]

/-- Sample implementation A2: subclass of `baseUnit`, applicable to
`res.users`, defined in module `module_a2`. -/
def implA2 : ServiceClass := ServiceClass.mk 3 "module_a2" [0, 3] ["res.users"]

/-- Sample session in which every sample module is installed. -/
def sessionAll : ConnectorSession :=
  ConnectorSession.mk ["module_base", "module_a", "module_b", "module_a2"]

/-- Sample backend holding two independent, available, matching
implementations of the same capability. -/
def backendAmb : Backend :=
  ((Backend.root 0 "magento" none []).register_service_class implA
    []).register_service_class implA2 []

/-- Accessing the consumer sets of a literal event. -/
theorem Event.consumers_mk (f : Option String → Finset Nat) :
    (Event.mk f).consumers = f := rfl

/-- Every backend matches its own name and version. -/
theorem Backend.matches_self (b : Backend) : b.matches b.name b.version = true := by
  simp [Backend.matches]

/-- The entries of a backend after replacing its entries list. -/
theorem Backend.entries_withEntries (b : Backend) (es : List ConnectorUnitEntry) :
    (b.withEntries es).entries = es := by
  cases b <;> rfl

/-- Recording one replacement edge never changes the sequence of service
classes of the entries: only `replaced_by` lists are extended. -/
theorem _register_replace_step_map (i : Nat) :
    ∀ (es : List ConnectorUnitEntry) (r : ServiceClass),
    (_register_replace_step i es r).map ConnectorUnitEntry.service_class =
      es.map ConnectorUnitEntry.service_class
  | [], _ => rfl
  | e :: es, r => by
    by_cases h : (e.service_class.cid == r.cid) = true
    · simp [_register_replace_step, h]
    · simp [_register_replace_step, h, _register_replace_step_map i es r]

/-- Recording replacement edges never changes the sequence of service
classes of the entries: only `replaced_by` lists are extended. -/
theorem _register_replace_map (replacing : List ServiceClass) :
    ∀ (es : List ConnectorUnitEntry) (i : Nat),
    (_register_replace es replacing i).map ConnectorUnitEntry.service_class =
      es.map ConnectorUnitEntry.service_class := by
  induction replacing with
  | nil => intro es i; rfl
  | cons r t ih =>
    intro es i
    unfold _register_replace at ih ⊢
    rw [List.foldl_cons, ih, _register_replace_step_map]

/-- C10: Resolve (get_service_class) is read-only: whether it returns an
implementation, returns not-found, or raises the ambiguity error, the
backend (its entries, entry replacement lists and parent chain) and the
global backend registry are returned exactly as they were given; the
state-passing translation of the method never writes to either. -/
theorem get_service_class_read_only (b : Backend) (base_class : ServiceClass)
    (session : ConnectorSession) (model_name : String) (registry : List Backend) :
    (Backend.get_service_class_st b base_class session model_name registry).2.1 = b ∧
    (Backend.get_service_class_st b base_class session model_name registry).2.2 =
      registry ∧
    (Backend.get_service_class_st b base_class session model_name registry).1 =
      b.get_service_class base_class session model_name := by
  unfold Backend.get_service_class_st Backend.get_service_class
  rcases h : (b.get_classes base_class session model_name).sort (· ≤ ·) with
    _ | ⟨c, _ | ⟨c2, rest⟩⟩ <;> simp [h]

/-- C9 (amended): GlobalIndex.Find returns the identical constructed node
when it is the unique constructed node matching its (name, version), and
returns the supplied default (possibly none) when no constructed node
matches. -/
theorem get_backend_unique_and_default :
    (∀ (registry : List Backend) (n : Backend) (default : Option Backend),
      n ∈ registry →
      (∀ m ∈ registry, m.matches n.name n.version = true → m = n) →
      Backend.get_backend registry n.name n.version default = some n) ∧
    (∀ (registry : List Backend) (name : String) (version : Option String)
      (default : Option Backend),
      (∀ m ∈ registry, m.matches name version = false) →
      Backend.get_backend registry name version default = default) := by
  constructor
  · intro registry
    induction registry with
    | nil => intro n d hmem _; simp at hmem
    | cons hd tl ih =>
      intro n d hmem huniq
      by_cases hhd : hd.matches n.name n.version = true
      · have hdn : hd = n := huniq hd (List.mem_cons_self hd tl) hhd
        have hfind : List.find? (fun b => b.matches n.name n.version) (hd :: tl) =
            some hd := List.find?_cons_of_pos tl hhd
        unfold Backend.get_backend
        rw [hfind, hdn]
      · have hne : hd ≠ n := by
          intro he
          exact hhd (by rw [he]; exact Backend.matches_self n)
        have hmem2 : n ∈ tl := by
          rcases List.mem_cons.mp hmem with h1 | h2
          · exact absurd h1.symm hne
          · exact h2
        have htl := ih n d hmem2
          (fun m hm hmatch => huniq m (List.mem_cons_of_mem hd hm) hmatch)
        have hfind : List.find? (fun b => b.matches n.name n.version) (hd :: tl) =
            List.find? (fun b => b.matches n.name n.version) tl :=
          List.find?_cons_of_neg tl hhd
        unfold Backend.get_backend at htl ⊢
        rw [hfind]
        exact htl
  · intro registry name version d h
    unfold Backend.get_backend
    rw [List.find?_eq_none.mpr (fun x hx => by simp [h x hx])]

/-- C9 (counterexample): two backends constructed with the same name and no
version are both in the registry, yet Find on that (name, version) cannot
return both: it does not return the identical second node. -/
theorem get_backend_identity_counterexample :
    Backend.init 0 (some "x") none none [] =
      Except.ok (Backend.root 0 "x" none [], [Backend.root 0 "x" none []]) ∧
    Backend.init 1 (some "x") none none [Backend.root 0 "x" none []] =
      Except.ok (Backend.root 1 "x" none [],
        [Backend.root 0 "x" none [], Backend.root 1 "x" none []]) ∧
    Backend.root 1 "x" none [] ∈
      [Backend.root 0 "x" none [], Backend.root 1 "x" none []] ∧
    Backend.get_backend [Backend.root 0 "x" none [], Backend.root 1 "x" none []]
        (Backend.root 1 "x" none []).name (Backend.root 1 "x" none []).version none ≠
      some (Backend.root 1 "x" none []) :=
  ⟨rfl, rfl, by decide, by decide⟩

/-- C9 (witness): on a registry holding a single node named x, Find returns
that very node, and Find for an absent name returns the default none. -/
theorem get_backend_unique_and_default_witness :
    Backend.get_backend [Backend.root 0 "x" none []] "x" none none =
      some (Backend.root 0 "x" none []) ∧
    Backend.get_backend [Backend.root 0 "x" none []] "y" none none = none :=
  ⟨get_backend_unique_and_default.1 [Backend.root 0 "x" none []]
      (Backend.root 0 "x" none []) none (by decide) (by decide),
    get_backend_unique_and_default.2 [Backend.root 0 "x" none []] "y" none none
      (by decide)⟩

/-- Registration returns the backend unchanged when a local entry for the
service class already exists. -/
theorem register_already_registered (b : Backend) (sc : ServiceClass)
    (r : List ServiceClass)
    (h : b.entries.any (fun e => e.service_class.cid == sc.cid) = true) :
    b.register_service_class sc r = b := by
  unfold Backend.register_service_class
  rw [if_pos h]

/-- Registration appends a fresh entry, after recording replacement edges,
when no local entry for the service class exists yet. -/
theorem register_fresh (b : Backend) (sc : ServiceClass) (r : List ServiceClass)
    (h : b.entries.any (fun e => e.service_class.cid == sc.cid) = false) :
    b.register_service_class sc r =
      b.withEntries (_register_replace b.entries r b.entries.length ++
        [ConnectorUnitEntry.mk sc []]) := by
  unfold Backend.register_service_class
  rw [if_neg (by simp [h])]

/-- C8: registering an implementation that already has a local entry is a
no-op leaving the backend unchanged, whatever replacement targets are
passed; and a first registration on a node without such an entry leaves
exactly one entry for that implementation. -/
theorem register_idempotent (b : Backend) (service_class : ServiceClass)
    (r1 r2 : List ServiceClass) :
    (b.entries.any (fun e => e.service_class.cid == service_class.cid) = true →
      b.register_service_class service_class r1 = b) ∧
    (b.entries.countP (fun e => e.service_class.cid == service_class.cid) = 0 →
      (b.register_service_class service_class r1).entries.countP
          (fun e => e.service_class.cid == service_class.cid) = 1 ∧
      (b.register_service_class service_class r1).register_service_class
          service_class r2 = b.register_service_class service_class r1) := by
  constructor
  · intro h
    exact register_already_registered b service_class r1 h
  · intro h0
    have hany : b.entries.any
        (fun e => e.service_class.cid == service_class.cid) = false := by
      rw [List.any_eq_false]
      intro x hx
      exact List.countP_eq_zero.mp h0 x hx
    have hentries : (b.register_service_class service_class r1).entries =
        _register_replace b.entries r1 b.entries.length ++
          [ConnectorUnitEntry.mk service_class []] := by
      rw [register_fresh b service_class r1 hany, Backend.entries_withEntries]
    have hsame : ∀ (l : List ConnectorUnitEntry),
        l.countP (fun e => e.service_class.cid == service_class.cid) =
          (l.map ConnectorUnitEntry.service_class).countP
            (fun c => c.cid == service_class.cid) := by
      intro l
      rw [List.countP_map]
      rfl
    have hcount_pre : (_register_replace b.entries r1 b.entries.length).countP
        (fun e => e.service_class.cid == service_class.cid) = 0 := by
      rw [hsame, _register_replace_map r1 b.entries b.entries.length, ← hsame]
      exact h0
    constructor
    · rw [hentries, List.countP_append, hcount_pre]
      simp [List.countP_cons]
    · have hany2 : (b.register_service_class service_class r1).entries.any
          (fun e => e.service_class.cid == service_class.cid) = true := by
        rw [hentries]
        simp
      exact register_already_registered
        (b.register_service_class service_class r1) service_class r2 hany2

/-- C8 (witness): on a fresh backend, registering implA leaves one entry for
it, and registering implA a second time (even with a replacing target) is a
no-op. -/
theorem register_idempotent_witness :
    ((Backend.root 0 "magento" none []).register_service_class implA
        []).entries.countP (fun e => e.service_class.cid == implA.cid) = 1 ∧
    ((Backend.root 0 "magento" none []).register_service_class implA
        []).register_service_class implA [implB] =
      (Backend.root 0 "magento" none []).register_service_class implA [] := by
  have h := register_idempotent (Backend.root 0 "magento" none []) implA [] [implB]
  exact ⟨(h.2 (by decide)).1, (h.2 (by decide)).2⟩

/-- Scope contents after the unsubscription loop: the consumer is erased
from each scope in the list, other scopes are untouched. -/
theorem foldl_discard_consumers (r : Nat) (key : Option String) :
    ∀ (names : List (Option String)) (e : Event),
    ((names.foldl (discard_from_scope r) e).consumers key) =
      if key ∈ names then (e.consumers key).erase r else e.consumers key := by
  intro names
  induction names with
  | nil => intro e; simp
  | cons n t ih =>
    intro e
    rw [List.foldl_cons, ih]
    by_cases hkt : key ∈ t
    · by_cases hkn : key = n
      · simp [hkt, hkn, discard_from_scope, Finset.erase_idem]
      · simp [hkt, hkn, discard_from_scope]
    · by_cases hkn : key = n
      · simp [hkt, hkn, discard_from_scope]
      · simp [hkt, hkn, discard_from_scope]

/-- Scope contents after the subscription loop: the consumer is inserted
into each scope in the list, other scopes are untouched. -/
theorem foldl_add_consumers (c : Nat) (key : Option String) :
    ∀ (names : List (Option String)) (e : Event),
    ((names.foldl (add_to_scope c) e).consumers key) =
      if key ∈ names then insert c (e.consumers key) else e.consumers key := by
  intro names
  induction names with
  | nil => intro e; simp
  | cons n t ih =>
    intro e
    rw [List.foldl_cons, ih]
    by_cases hkt : key ∈ t
    · by_cases hkn : key = n
      · simp [hkt, hkn, add_to_scope, Finset.insert_idem]
      · simp [hkt, hkn, add_to_scope]
    · by_cases hkn : key = n
      · simp [hkt, hkn, add_to_scope]
      · simp [hkt, hkn, add_to_scope]

/-- Scope contents after a subscription without replacement. -/
theorem subscribe_none_consumers (e : Event) (c : Nat)
    (model_names : Option (List String)) (key : Option String) :
    (e.subscribe c model_names none).consumers key =
      if key ∈ normalize_model_names model_names then insert c (e.consumers key)
      else e.consumers key := by
  unfold Event.subscribe
  rw [foldl_add_consumers]

/-- C7: subscribing with a replacement first removes the replaced consumer
from every scope of the subscription and then adds the new consumer to those
scopes, leaving all other scopes untouched; in particular, after
Subscribe(A, scope m) and Subscribe(B, scope m, replacing A), firing scope m
invokes B only. -/
theorem subscribe_replacing :
    (∀ (e : Event) (consumer r : Nat) (model_names : Option (List String))
      (key : Option String),
      (e.subscribe consumer model_names (some r)).consumers key =
        if key ∈ normalize_model_names model_names then
          insert consumer ((e.consumers key).erase r)
        else e.consumers key) ∧
    (∀ (A B : Nat) (m : String) (session : ConnectorSession) (payload : List String),
      (((Event.mk (fun _ => ∅)).subscribe A (some [m]) none).subscribe B
          (some [m]) (some A)).fire session m payload = [(B, m :: payload)]) := by
  constructor
  · intro e c r ns key
    unfold Event.subscribe Event.unsubscribe
    rw [foldl_add_consumers, foldl_discard_consumers]
    by_cases h : key ∈ normalize_model_names ns <;> simp [h]
  · intro A B m session payload
    have hsub : ∀ (e : Event) (c r : Nat) (key : Option String),
        (e.subscribe c (some [m]) (some r)).consumers key =
          if key ∈ normalize_model_names (some [m]) then
            insert c ((e.consumers key).erase r)
          else e.consumers key := by
      intro e c r key
      unfold Event.subscribe Event.unsubscribe
      rw [foldl_add_consumers, foldl_discard_consumers]
      by_cases h : key ∈ normalize_model_names (some [m]) <;> simp [h]
    have hwild : (((Event.mk (fun _ => ∅)).subscribe A (some [m]) none).subscribe B
        (some [m]) (some A)).consumers none = ∅ := by
      rw [hsub, subscribe_none_consumers]
      simp [normalize_model_names]
    have hnamed : (((Event.mk (fun _ => ∅)).subscribe A (some [m]) none).subscribe B
        (some [m]) (some A)).consumers (some m) = {B} := by
      rw [hsub, subscribe_none_consumers]
      simp [normalize_model_names, Finset.erase_insert]
    unfold Event.fire
    rw [hwild, hnamed, Finset.sort_empty, Finset.sort_singleton]
    rfl

/-- C5: the dispatch loop of fire does not consult availability: a consumer
whose origin module is not installed in the session is invoked anyway,
whereas the dispatch described by the specification would invoke nothing. -/
theorem fire_ignores_availability :
    (ConnectorSession.mk []).is_module_installed ((fun _ => "module_x") 7) = false ∧
    ((Event.mk (fun _ => ∅)).subscribe 7 none none).fire (ConnectorSession.mk [])
        "res.users" ["payload"] = [(7, ["res.users", "payload"])] ∧
    spec_fire ((Event.mk (fun _ => ∅)).subscribe 7 none none)
        (fun _ => "module_x") (ConnectorSession.mk []) "res.users" ["payload"] =
      [] := by
  have hw : ((Event.mk (fun _ => ∅)).subscribe 7 none none).consumers none =
      {7} := by
    rw [subscribe_none_consumers]
    simp [normalize_model_names, Event.consumers_mk]
  have hn : ((Event.mk (fun _ => ∅)).subscribe 7 none none).consumers
      (some "res.users") = ∅ := by
    rw [subscribe_none_consumers]
    simp [normalize_model_names, Event.consumers_mk]
  refine ⟨rfl, ?_, ?_⟩
  · unfold Event.fire
    rw [hw, hn, Finset.sort_singleton, Finset.sort_empty]
    rfl
  · unfold spec_fire
    rw [hw, hn, Finset.sort_singleton, Finset.sort_empty]
    rfl

/-- C6: has_consumer_for does not consult availability: with a single
wildcard consumer whose origin module is not installed it still answers
true, whereas the predicate described by the specification answers false. -/
theorem has_consumer_for_ignores_availability :
    (ConnectorSession.mk []).is_module_installed ((fun _ => "module_x") 7) = false ∧
    ((Event.mk (fun _ => ∅)).subscribe 7 none none).has_consumer_for
        (ConnectorSession.mk []) "res.users" = true ∧
    spec_has_consumer_for ((Event.mk (fun _ => ∅)).subscribe 7 none none)
        (fun _ => "module_x") (ConnectorSession.mk []) "res.users" = false := by
  have hw : ((Event.mk (fun _ => ∅)).subscribe 7 none none).consumers none =
      {7} := by
    rw [subscribe_none_consumers]
    simp [normalize_model_names, Event.consumers_mk]
  have hn : ((Event.mk (fun _ => ∅)).subscribe 7 none none).consumers
      (some "res.users") = ∅ := by
    rw [subscribe_none_consumers]
    simp [normalize_model_names, Event.consumers_mk]
  refine ⟨rfl, ?_, ?_⟩
  · unfold Event.has_consumer_for
    rw [hw]
    rfl
  · unfold spec_has_consumer_for
    rw [hw, hn]
    rw [Finset.filter_singleton]
    simp [ConnectorSession.is_module_installed]

/-- Unfolding of get_service_class as a case split on the listed candidate
set. -/
theorem get_service_class_eq (b : Backend) (base_class : ServiceClass)
    (session : ConnectorSession) (model_name : String) :
    b.get_service_class base_class session model_name =
      match (b.get_classes base_class session model_name).sort (· ≤ ·) with
      | [] => ResolveResult.notFound
      | [c] => ResolveResult.found c
      | c1 :: c2 :: _ =>
        ResolveResult.ambiguous (b.get_classes base_class session model_name).card
          c1 c2 := rfl

/-- C1: the outcome of Resolve is classified by the candidate set computed by
the chain search: a singleton set returns its unique element, more than one
candidate raises the ambiguity error carrying the match count and two
distinct example candidates, and an empty set (empty at every node up the
parent chain) is the explicit not-found outcome. -/
theorem get_service_class_classification (b : Backend) (base_class : ServiceClass)
    (session : ConnectorSession) (model_name : String) :
    (b.get_classes base_class session model_name = ∅ →
      b.get_service_class base_class session model_name =
        ResolveResult.notFound) ∧
    (∀ c, b.get_classes base_class session model_name = {c} →
      b.get_service_class base_class session model_name =
        ResolveResult.found c) ∧
    (2 ≤ (b.get_classes base_class session model_name).card →
      ∃ c1 c2, c1 ∈ b.get_classes base_class session model_name ∧
        c2 ∈ b.get_classes base_class session model_name ∧ c1 ≠ c2 ∧
        b.get_service_class base_class session model_name =
          ResolveResult.ambiguous
            (b.get_classes base_class session model_name).card c1 c2) := by
  refine ⟨?_, ?_, ?_⟩
  · intro h
    rw [get_service_class_eq, h, Finset.sort_empty]
  · intro c h
    rw [get_service_class_eq, h, Finset.sort_singleton]
  · intro h2
    rcases hl : (b.get_classes base_class session model_name).sort (· ≤ ·) with
      _ | ⟨c1, _ | ⟨c2, rest⟩⟩
    · exfalso
      have hlen := @Finset.length_sort Nat (· ≤ ·) _ _ _ _
        (b.get_classes base_class session model_name)
      rw [hl] at hlen
      simp at hlen
      omega
    · exfalso
      have hlen := @Finset.length_sort Nat (· ≤ ·) _ _ _ _
        (b.get_classes base_class session model_name)
      rw [hl] at hlen
      simp at hlen
      omega
    · have hnd := Finset.sort_nodup (· ≤ ·)
        (b.get_classes base_class session model_name)
      rw [hl] at hnd
      refine ⟨c1, c2, ?_, ?_, ?_, ?_⟩
      · have hm : c1 ∈ (b.get_classes base_class session model_name).sort (· ≤ ·) := by
          rw [hl]; exact List.mem_cons_self c1 (c2 :: rest)
        exact (Finset.mem_sort (· ≤ ·)).mp hm
      · have hm : c2 ∈ (b.get_classes base_class session model_name).sort (· ≤ ·) := by
          rw [hl]
          exact List.mem_cons_of_mem c1 (List.mem_cons_self c2 rest)
        exact (Finset.mem_sort (· ≤ ·)).mp hm
      · intro he
        exact (List.nodup_cons.mp hnd).1 (he ▸ List.mem_cons_self c2 rest)
      · rw [get_service_class_eq, hl]

/-- C1 (witness): on a backend holding two independent, available, matching
implementations, the classification yields the ambiguity outcome with the
match count 2 and two distinct example candidates. -/
theorem get_service_class_classification_witness :
    ∃ c1 c2, c1 ∈ backendAmb.get_classes baseUnit sessionAll "res.users" ∧
      c2 ∈ backendAmb.get_classes baseUnit sessionAll "res.users" ∧ c1 ≠ c2 ∧
      backendAmb.get_service_class baseUnit sessionAll "res.users" =
        ResolveResult.ambiguous
          (backendAmb.get_classes baseUnit sessionAll "res.users").card c1 c2 :=
  (get_service_class_classification backendAmb baseUnit sessionAll
    "res.users").2.2 (by decide)

/-- Unfolding equation of follow_replacing with at least one fuel level. -/
theorem follow_replacing_succ (entries : List ConnectorUnitEntry)
    (base_class : ServiceClass) (session : ConnectorSession) (model_name : String)
    (fuel : Nat) (idxs : List Nat) :
    follow_replacing entries base_class session model_name (fuel + 1) idxs =
      idxs.foldl
        (follow_step entries base_class session model_name
          (follow_replacing entries base_class session model_name fuel))
        ∅ := rfl

/-- Replacing the entries twice keeps only the second list. -/
theorem withEntries_withEntries (b : Backend)
    (es1 es2 : List ConnectorUnitEntry) :
    (b.withEntries es1).withEntries es2 = b.withEntries es2 := by
  cases b <;> rfl

/-- When the local candidate set is non-empty the chain search stops at the
node itself, whatever the parent is. -/
theorem get_classes_of_local_ne (b : Backend) (base_class : ServiceClass)
    (session : ConnectorSession) (model_name : String)
    (h : b.local_candidates base_class session model_name ≠ ∅) :
    b.get_classes base_class session model_name =
      b.local_candidates base_class session model_name := by
  cases b with
  | root bid n v es => rfl
  | child bid n v es p =>
    show (if (Backend.child bid n v es p).local_candidates base_class session
        model_name = ∅ then p.get_classes base_class session model_name
      else (Backend.child bid n v es p).local_candidates base_class session
        model_name) = _
    rw [if_neg h]

/-- C2: on a node where A is registered and then B is registered replacing A
(with A available, and both matching the searched role and model), Resolve
returns B when the module of B is installed, and falls back to A when the
module of B is not installed. -/
theorem replacement_and_fallback (A B base_class : ServiceClass)
    (session : ConnectorSession) (model_name : String) (b0 : Backend)
    (hE0 : b0.entries = [])
    (hAB : A.cid ≠ B.cid)
    (hAi : session.is_module_installed A.odoo_module_name = true)
    (hAs : issubclass A base_class = true)
    (hAm : A.matchModel model_name = true)
    (hBs : issubclass B base_class = true)
    (hBm : B.matchModel model_name = true) :
    (session.is_module_installed B.odoo_module_name = true →
      ((b0.register_service_class A []).register_service_class B
          [A]).get_service_class base_class session model_name =
        ResolveResult.found B.cid) ∧
    (session.is_module_installed B.odoo_module_name = false →
      ((b0.register_service_class A []).register_service_class B
          [A]).get_service_class base_class session model_name =
        ResolveResult.found A.cid) := by
  have h1 : b0.register_service_class A [] =
      b0.withEntries [ConnectorUnitEntry.mk A []] := by
    rw [register_fresh b0 A [] (by rw [hE0]; rfl), hE0]
    rfl
  have hEnt1 : (b0.register_service_class A []).entries =
      [ConnectorUnitEntry.mk A []] := by
    rw [h1, Backend.entries_withEntries]
  have hany2 : (b0.register_service_class A []).entries.any
      (fun e => e.service_class.cid == B.cid) = false := by
    rw [hEnt1]
    simp only [List.any_cons, List.any_nil, Bool.or_false]
    exact beq_eq_false_iff_ne.mpr hAB
  have hr : _register_replace [ConnectorUnitEntry.mk A []] [A]
      (List.length [ConnectorUnitEntry.mk A []]) = [ConnectorUnitEntry.mk A [1]] := by
    simp [_register_replace, _register_replace_step]
  have h2 : (b0.register_service_class A []).register_service_class B [A] =
      b0.withEntries [ConnectorUnitEntry.mk A [1], ConnectorUnitEntry.mk B []] := by
    rw [register_fresh (b0.register_service_class A []) B [A] hany2, hEnt1, h1,
      withEntries_withEntries, hr]
    rfl
  have hEnt2 : ((b0.register_service_class A []).register_service_class B
      [A]).entries = [ConnectorUnitEntry.mk A [1], ConnectorUnitEntry.mk B []] := by
    rw [h2, Backend.entries_withEntries]
  have hloc_eq : ((b0.register_service_class A []).register_service_class B
        [A]).local_candidates base_class session model_name =
      (if (session.is_module_installed B.odoo_module_name &&
            issubclass B base_class && B.matchModel model_name) then
        insert B.cid
          (if (if (session.is_module_installed B.odoo_module_name &&
                issubclass B base_class && B.matchModel model_name) then
                ({B.cid} : Finset Nat) else ∅) = ∅ then
            (if (session.is_module_installed A.odoo_module_name &&
                issubclass A base_class && A.matchModel model_name) then
              insert A.cid ∅ else ∅)
          else
            ∅ ∪ (if (session.is_module_installed B.odoo_module_name &&
                issubclass B base_class && B.matchModel model_name) then
              ({B.cid} : Finset Nat) else ∅))
      else
        (if (if (session.is_module_installed B.odoo_module_name &&
              issubclass B base_class && B.matchModel model_name) then
              ({B.cid} : Finset Nat) else ∅) = ∅ then
          (if (session.is_module_installed A.odoo_module_name &&
              issubclass A base_class && A.matchModel model_name) then
            insert A.cid ∅ else ∅)
        else
          ∅ ∪ (if (session.is_module_installed B.odoo_module_name &&
              issubclass B base_class && B.matchModel model_name) then
            ({B.cid} : Finset Nat) else ∅))) := by
    unfold Backend.local_candidates
    rw [hEnt2]
    rfl
  constructor
  · intro hBi
    have hloc : ((b0.register_service_class A []).register_service_class B
        [A]).local_candidates base_class session model_name = {B.cid} := by
      rw [hloc_eq, hBi, hBs, hBm]
      simp
    have hgc : ((b0.register_service_class A []).register_service_class B
        [A]).get_classes base_class session model_name = {B.cid} := by
      rw [get_classes_of_local_ne _ _ _ _ (by rw [hloc]; exact Finset.singleton_ne_empty B.cid), hloc]
    rw [get_service_class_eq, hgc, Finset.sort_singleton]
  · intro hBi
    have hloc : ((b0.register_service_class A []).register_service_class B
        [A]).local_candidates base_class session model_name = {A.cid} := by
      rw [hloc_eq, hBi, hAi, hAs, hAm]
      simp
    have hgc : ((b0.register_service_class A []).register_service_class B
        [A]).get_classes base_class session model_name = {A.cid} := by
      rw [get_classes_of_local_ne _ _ _ _ (by rw [hloc]; exact Finset.singleton_ne_empty A.cid), hloc]
    rw [get_service_class_eq, hgc, Finset.sort_singleton]

/-- C2 (witness): with the sample classes, B wins when module_b is
installed, and A is returned when module_b is absent from the session. -/
theorem replacement_and_fallback_witness :
    (((Backend.root 0 "magento" none []).register_service_class implA
        []).register_service_class implB [implA]).get_service_class baseUnit
        sessionAll "res.users" = ResolveResult.found implB.cid ∧
    (((Backend.root 0 "magento" none []).register_service_class implA
        []).register_service_class implB [implA]).get_service_class baseUnit
        (ConnectorSession.mk ["module_base", "module_a", "module_a2"])
        "res.users" = ResolveResult.found implA.cid := by
  constructor
  · exact (replacement_and_fallback implA implB baseUnit sessionAll "res.users"
      (Backend.root 0 "magento" none []) rfl (by decide) (by decide) (by decide)
      (by decide) (by decide) (by decide)).1 (by decide)
  · exact (replacement_and_fallback implA implB baseUnit
      (ConnectorSession.mk ["module_base", "module_a", "module_a2"]) "res.users"
      (Backend.root 0 "magento" none []) rfl (by decide) (by decide) (by decide)
      (by decide) (by decide) (by decide)).2 (by decide)

/-- C3: when A and A2 are both registered and both replaced by the same
available, matching implementation B on the same node, Resolve returns B as
the unique candidate (the two substituted occurrences of B collapse by
identity) and in particular does not raise the ambiguity error. -/
theorem diamond_replacement (A A2 B base_class : ServiceClass)
    (session : ConnectorSession) (model_name : String) (b0 : Backend)
    (hE0 : b0.entries = [])
    (hA12 : A.cid ≠ A2.cid) (hAB : A.cid ≠ B.cid) (hA2B : A2.cid ≠ B.cid)
    (hBi : session.is_module_installed B.odoo_module_name = true)
    (hBs : issubclass B base_class = true)
    (hBm : B.matchModel model_name = true) :
    (((b0.register_service_class A []).register_service_class A2
        []).register_service_class B [A, A2]).get_service_class base_class
        session model_name = ResolveResult.found B.cid := by
  have h1 : b0.register_service_class A [] =
      b0.withEntries [ConnectorUnitEntry.mk A []] := by
    rw [register_fresh b0 A [] (by rw [hE0]; rfl), hE0]
    rfl
  have hEnt1 : (b0.register_service_class A []).entries =
      [ConnectorUnitEntry.mk A []] := by
    rw [h1, Backend.entries_withEntries]
  have hany2 : (b0.register_service_class A []).entries.any
      (fun e => e.service_class.cid == A2.cid) = false := by
    rw [hEnt1]
    simp only [List.any_cons, List.any_nil, Bool.or_false]
    exact beq_eq_false_iff_ne.mpr hA12
  have h2 : (b0.register_service_class A []).register_service_class A2 [] =
      b0.withEntries [ConnectorUnitEntry.mk A [], ConnectorUnitEntry.mk A2 []] := by
    rw [register_fresh (b0.register_service_class A []) A2 [] hany2, hEnt1, h1,
      withEntries_withEntries]
    rfl
  have hEnt2 : ((b0.register_service_class A []).register_service_class A2
      []).entries = [ConnectorUnitEntry.mk A [], ConnectorUnitEntry.mk A2 []] := by
    rw [h2, Backend.entries_withEntries]
  have hany3 : ((b0.register_service_class A []).register_service_class A2
      []).entries.any (fun e => e.service_class.cid == B.cid) = false := by
    rw [hEnt2]
    simp only [List.any_cons, List.any_nil, Bool.or_false,
      beq_eq_false_iff_ne.mpr hAB, beq_eq_false_iff_ne.mpr hA2B]
  have hr3 : _register_replace
      [ConnectorUnitEntry.mk A [], ConnectorUnitEntry.mk A2 []] [A, A2]
      (List.length [ConnectorUnitEntry.mk A [], ConnectorUnitEntry.mk A2 []]) =
      [ConnectorUnitEntry.mk A [2], ConnectorUnitEntry.mk A2 [2]] := by
    simp [_register_replace, _register_replace_step,
      beq_eq_false_iff_ne.mpr hA12]
  have h3 : ((b0.register_service_class A []).register_service_class A2
      []).register_service_class B [A, A2] =
      b0.withEntries [ConnectorUnitEntry.mk A [2], ConnectorUnitEntry.mk A2 [2],
        ConnectorUnitEntry.mk B []] := by
    rw [register_fresh _ B [A, A2] hany3, hEnt2, h2, withEntries_withEntries, hr3]
    rfl
  have hEnt3 : (((b0.register_service_class A []).register_service_class A2
      []).register_service_class B [A, A2]).entries =
      [ConnectorUnitEntry.mk A [2], ConnectorUnitEntry.mk A2 [2],
        ConnectorUnitEntry.mk B []] := by
    rw [h3, Backend.entries_withEntries]
  have hloc_eq : (((b0.register_service_class A []).register_service_class A2
        []).register_service_class B [A, A2]).local_candidates base_class
        session model_name =
      (let rB : Finset Nat :=
        if session.is_module_installed B.odoo_module_name &&
            issubclass B base_class && B.matchModel model_name then {B.cid}
        else ∅
      let t0 : Finset Nat :=
        if rB = ∅ then
          (if session.is_module_installed A.odoo_module_name &&
              issubclass A base_class && A.matchModel model_name then
            insert A.cid ∅ else ∅)
        else ∅ ∪ rB
      let t1 : Finset Nat :=
        if rB = ∅ then
          (if session.is_module_installed A2.odoo_module_name &&
              issubclass A2 base_class && A2.matchModel model_name then
            insert A2.cid t0 else t0)
        else t0 ∪ rB
      if session.is_module_installed B.odoo_module_name &&
          issubclass B base_class && B.matchModel model_name then
        insert B.cid t1
      else t1) := by
    unfold Backend.local_candidates
    rw [hEnt3]
    rfl
  have hloc : (((b0.register_service_class A []).register_service_class A2
      []).register_service_class B [A, A2]).local_candidates base_class
      session model_name = {B.cid} := by
    rw [hloc_eq]
    simp [hBi, hBs, hBm]
  have hgc : (((b0.register_service_class A []).register_service_class A2
      []).register_service_class B [A, A2]).get_classes base_class session
      model_name = {B.cid} := by
    rw [get_classes_of_local_ne _ _ _ _
      (by rw [hloc]; exact Finset.singleton_ne_empty B.cid), hloc]
  rw [get_service_class_eq, hgc, Finset.sort_singleton]

/-- C3 (witness): with the sample classes on a fresh node, the diamond
resolves to B. -/
theorem diamond_replacement_witness :
    ((((Backend.root 0 "magento" none []).register_service_class implA
        []).register_service_class implA2 []).register_service_class implB
        [implA, implA2]).get_service_class baseUnit sessionAll "res.users" =
      ResolveResult.found implB.cid :=
  diamond_replacement implA implA2 implB baseUnit sessionAll "res.users"
    (Backend.root 0 "magento" none []) rfl (by decide) (by decide) (by decide)
    (by decide) (by decide) (by decide)

/-- C4: a node whose local candidate set is empty delegates the whole search
(and hence the resolution outcome) to its parent with the same arguments;
in particular, across three levels where only the grandparent holds a
matching, available implementation and child and parent have no entries, the
child resolves to the grandparent implementation. -/
theorem parent_fallback :
    (∀ (b p : Backend) (base_class : ServiceClass) (session : ConnectorSession)
      (model_name : String),
      b.parent = some p →
      b.local_candidates base_class session model_name = ∅ →
      b.get_classes base_class session model_name =
          p.get_classes base_class session model_name ∧
        b.get_service_class base_class session model_name =
          p.get_service_class base_class session model_name) ∧
    (∀ (M base_class : ServiceClass) (session : ConnectorSession)
      (model_name : String) (c2 c1 c0 : Nat) (n2 n1 n0 : String)
      (v2 v1 v0 : Option String),
      session.is_module_installed M.odoo_module_name = true →
      issubclass M base_class = true →
      M.matchModel model_name = true →
      (Backend.child c2 n2 v2 []
          (Backend.child c1 n1 v1 []
            ((Backend.root c0 n0 v0 []).register_service_class M
              []))).get_service_class base_class session model_name =
        ResolveResult.found M.cid) := by
  constructor
  · intro b p base_class session model_name hpar hloc
    cases b with
    | root bid n v es => simp [Backend.parent] at hpar
    | child bid n v es q =>
      have hq : q = p := by simpa [Backend.parent] using hpar
      subst hq
      have hgc : (Backend.child bid n v es q).get_classes base_class session
          model_name = q.get_classes base_class session model_name := by
        show (if (Backend.child bid n v es q).local_candidates base_class
            session model_name = ∅ then
            q.get_classes base_class session model_name
          else (Backend.child bid n v es q).local_candidates base_class
            session model_name) = _
        rw [if_pos hloc]
      refine ⟨hgc, ?_⟩
      rw [get_service_class_eq, hgc, ← get_service_class_eq]
  · intro M base_class session model_name c2 c1 c0 n2 n1 n0 v2 v1 v0 hMi hMs hMm
    have h1 : (Backend.root c0 n0 v0 []).register_service_class M [] =
        Backend.root c0 n0 v0 [ConnectorUnitEntry.mk M []] := by
      rw [register_fresh (Backend.root c0 n0 v0 []) M [] rfl]
      rfl
    have hlocg : (Backend.root c0 n0 v0
        [ConnectorUnitEntry.mk M []]).local_candidates base_class session
        model_name =
        (if session.is_module_installed M.odoo_module_name &&
            issubclass M base_class && M.matchModel model_name then
          insert M.cid ∅ else ∅) := rfl
    have hlocg2 : (Backend.root c0 n0 v0
        [ConnectorUnitEntry.mk M []]).local_candidates base_class session
        model_name = {M.cid} := by
      rw [hlocg, hMi, hMs, hMm]
      rfl
    have hgcg : (Backend.root c0 n0 v0
        [ConnectorUnitEntry.mk M []]).get_classes base_class session
        model_name = {M.cid} := by
      rw [show (Backend.root c0 n0 v0
          [ConnectorUnitEntry.mk M []]).get_classes base_class session
          model_name =
        (Backend.root c0 n0 v0
          [ConnectorUnitEntry.mk M []]).local_candidates base_class session
          model_name from rfl, hlocg2]
    have hgcp : (Backend.child c1 n1 v1 []
        (Backend.root c0 n0 v0 [ConnectorUnitEntry.mk M []])).get_classes
        base_class session model_name =
        (Backend.root c0 n0 v0 [ConnectorUnitEntry.mk M []]).get_classes
          base_class session model_name := by
      show (if (Backend.child c1 n1 v1 []
          (Backend.root c0 n0 v0
            [ConnectorUnitEntry.mk M []])).local_candidates base_class session
          model_name = ∅ then
          (Backend.root c0 n0 v0 [ConnectorUnitEntry.mk M []]).get_classes
            base_class session model_name
        else (Backend.child c1 n1 v1 []
          (Backend.root c0 n0 v0
            [ConnectorUnitEntry.mk M []])).local_candidates base_class session
          model_name) = _
      rw [if_pos (show (Backend.child c1 n1 v1 []
        (Backend.root c0 n0 v0
          [ConnectorUnitEntry.mk M []])).local_candidates base_class session
        model_name = ∅ from rfl)]
    have hgcc : (Backend.child c2 n2 v2 []
        (Backend.child c1 n1 v1 []
          (Backend.root c0 n0 v0 [ConnectorUnitEntry.mk M []]))).get_classes
        base_class session model_name =
        (Backend.child c1 n1 v1 []
          (Backend.root c0 n0 v0 [ConnectorUnitEntry.mk M []])).get_classes
          base_class session model_name := by
      show (if (Backend.child c2 n2 v2 []
          (Backend.child c1 n1 v1 []
            (Backend.root c0 n0 v0
              [ConnectorUnitEntry.mk M []]))).local_candidates base_class
          session model_name = ∅ then
          (Backend.child c1 n1 v1 []
            (Backend.root c0 n0 v0 [ConnectorUnitEntry.mk M []])).get_classes
            base_class session model_name
        else (Backend.child c2 n2 v2 []
          (Backend.child c1 n1 v1 []
            (Backend.root c0 n0 v0
              [ConnectorUnitEntry.mk M []]))).local_candidates base_class
          session model_name) = _
      rw [if_pos (show (Backend.child c2 n2 v2 []
        (Backend.child c1 n1 v1 []
          (Backend.root c0 n0 v0
            [ConnectorUnitEntry.mk M []]))).local_candidates base_class
        session model_name = ∅ from rfl)]
    rw [h1, get_service_class_eq, hgcc, hgcp, hgcg, Finset.sort_singleton]

/-- C4 (witness): the general delegation applies to a concrete empty child
over a grandparent chain, and the three-level chain resolves to the sample
implementation registered on the grandparent. -/
theorem parent_fallback_witness :
    ((Backend.child 2 "magento1.7" none []
        (Backend.root 0 "magento" none [])).get_classes baseUnit sessionAll
        "res.users" =
      (Backend.root 0 "magento" none []).get_classes baseUnit sessionAll
        "res.users" ∧
    (Backend.child 2 "magento1.7" none []
        (Backend.root 0 "magento" none [])).get_service_class baseUnit
        sessionAll "res.users" =
      (Backend.root 0 "magento" none []).get_service_class baseUnit sessionAll
        "res.users") ∧
    (Backend.child 2 "magento1.7-s" none []
        (Backend.child 1 "magento1.7" none []
          ((Backend.root 0 "magento" none []).register_service_class implA
            []))).get_service_class baseUnit sessionAll "res.users" =
      ResolveResult.found implA.cid := by
  constructor
  · exact parent_fallback.1 (Backend.child 2 "magento1.7" none []
      (Backend.root 0 "magento" none [])) (Backend.root 0 "magento" none [])
      baseUnit sessionAll "res.users" rfl (by decide)
  · exact parent_fallback.2 implA baseUnit sessionAll "res.users" 2 1 0
      "magento1.7-s" "magento1.7" "magento" none none none (by decide)
      (by decide) (by decide)
